import Mathlib

/-!
Shallow embedding of the Bitespeed identity-reconciliation service.

The embedding follows the source files of the repository:
* the Contact entity (contact.entity.ts),
* the request/response DTOs (identify.dto.ts),
* ContactService (contact.service.ts), whose method identify is the whole
  reconciliation algorithm.

Timestamps are modelled by a logical clock (a natural number) held in the
store state; the clock advances at every insert, so created-at values of
distinct rows are distinct and increase in insertion order.  The store list
is kept in insertion order, hence in createdAt-ascending order, so the
ORDER BY createdAt ASC of the source queries is realised by plain
filtering of the list.
-/

namespace Bitespeed

/-- The linkPrecedence enum column of the Contact entity. -/
inductive LinkPrecedence where
  | primary
  | secondary
deriving Repr, DecidableEq

/-- The Contact entity (contact.entity.ts).  Nullable columns are Options;
timestamp columns hold logical-clock values. -/
structure Contact where
  id : Nat
  phoneNumber : Option String := none
  email : Option String := none
  linkedId : Option Nat := none
  linkPrecedence : LinkPrecedence
  createdAt : Nat
  updatedAt : Nat
  deletedAt : Option Nat := none
deriving Repr, DecidableEq

/-- The relational store together with the id sequence and the logical
clock that produces CURRENT_TIMESTAMP values. -/
structure DB where
  store : List Contact
  nextId : Nat
  clock : Nat
deriving Repr, DecidableEq

/-- The empty store. -/
def DB.empty : DB := ⟨[], 1, 0⟩

/-- The request body of POST /identify (identify.dto.ts). -/
structure IdentifyRequestDto where
  email : Option String := none
  phoneNumber : Option String := none
deriving Repr, DecidableEq

/-- The inner contact object of IdentifyResponseDto (identify.dto.ts).
The first field of the source DTO is spelled primaryContatctId. -/
structure ContactSummary where
  primaryContatctId : Nat
  emails : List String
  phoneNumbers : List String
  secondaryContactIds : List Nat
deriving Repr, DecidableEq

/-- The response body of POST /identify (identify.dto.ts). -/
structure IdentifyResponseDto where
  contact : ContactSummary
deriving Repr, DecidableEq

/-- The keys of the serialised contact object, in declaration order of the
IdentifyResponseDto class: the wire format serialises class fields under
exactly these names. -/
def contactResponseKeys : List String :=
  ["primaryContatctId", "emails", "phoneNumbers", "secondaryContactIds"]

/-- JS truthiness of an optional string field: undefined and the empty
string are falsy, every other string is truthy. -/
def strTruthy : Option String → Bool
  | none => false
  | some s => s != ""

/-- The WHERE predicate of the two attribute queries of the service:
contact.email = :email OR contact.phoneNumber = :phoneNumber.  A NULL
parameter makes the corresponding SQL equality false. -/
def matchesRequest (email phoneNumber : Option String) (c : Contact) : Prop :=
  (email ≠ none ∧ c.email = email) ∨ (phoneNumber ≠ none ∧ c.phoneNumber = phoneNumber)

instance (email phoneNumber : Option String) (c : Contact) :
    Decidable (matchesRequest email phoneNumber c) := by
  unfold matchesRequest; infer_instance

/-- ContactService.findContactsByEmailOrPhone: non-deleted contacts whose
email or phoneNumber equals the given one, createdAt ascending (the store
list is createdAt-ascending, so filtering preserves that order). -/
def findContactsByEmailOrPhone (email phoneNumber : Option String) (db : DB) :
    List Contact :=
  db.store.filter fun c =>
    decide (matchesRequest email phoneNumber c ∧ c.deletedAt = none)

/-- ContactService.findOtherPrimaryContacts: non-deleted primary contacts
matching the attribute predicate whose id differs from the given id. -/
def findOtherPrimaryContacts (email phoneNumber : Option String) (id : Nat)
    (db : DB) : List Contact :=
  db.store.filter fun c =>
    decide (matchesRequest email phoneNumber c ∧ c.linkPrecedence = .primary
      ∧ c.id ≠ id ∧ c.deletedAt = none)

/-- ContactService.findAllRelatedContacts: the non-deleted contacts whose
id or linkedId equals the given primary id, createdAt ascending. -/
def findAllRelatedContacts (primaryId : Nat) (db : DB) : List Contact :=
  db.store.filter fun c =>
    decide ((c.id = primaryId ∨ c.linkedId = some primaryId) ∧ c.deletedAt = none)

/-- The JS reduce of the service, (earliest, current) =>
earliest.createdAt < current.createdAt ? earliest : current, applied to a
non-empty array given as head and tail.  On a tie the current (later)
element is taken. -/
def reduceEarliest (c0 : Contact) (rest : List Contact) : Contact :=
  rest.foldl (fun earliest current =>
    if earliest.createdAt < current.createdAt then earliest else current) c0

/-- ContactService.determinePrimaryContact on a non-empty array (the call
site has checked contacts.length): the first contact with primary
precedence if one exists, otherwise a copy of the earliest contact with
linkPrecedence set to primary (all other fields, linkedId included, are
kept by the object spread). -/
def determinePrimaryContact (c0 : Contact) (rest : List Contact) : Contact :=
  match (c0 :: rest).find? (fun c => decide (c.linkPrecedence = .primary)) with
  | some primary => primary
  | none => { reduceEarliest c0 rest with linkPrecedence := .primary }

/-- ContactService.hasNewInfo: the && guards use JS truthiness, so an
undefined or empty-string field never supplies new information. -/
def hasNewInfo (contacts : List Contact) (email phoneNumber : Option String) :
    Bool :=
  (strTruthy email && !(contacts.any fun c => c.email == email))
    || (strTruthy phoneNumber
        && !(contacts.any fun c => c.phoneNumber == phoneNumber))

/-- allContacts.map(c => c.field).filter(Boolean): the truthy string values
in list order. -/
def truthyValues (l : List (Option String)) : List String :=
  l.filterMap fun o =>
    match o with
    | some s => if s = "" then none else some s
    | none => none

/-- Array.from(new Set(l)): deduplicate keeping the first occurrence of
each value, preserving insertion order. -/
def jsSetDedupAux (seen : List String) : List String → List String
  | [] => []
  | x :: xs =>
      if x ∈ seen then jsSetDedupAux seen xs
      else x :: jsSetDedupAux (x :: seen) xs

/-- Array.from(new Set(l)) with an empty seen set. -/
def jsSetDedup (l : List String) : List String := jsSetDedupAux [] l

/-- The splice/unshift block of consolidateContacts: when the value is
truthy and a member of the list, remove its (first) occurrence and place
it at the front. -/
def moveToFront (v : Option String) (l : List String) : List String :=
  match v with
  | some s => if s ≠ "" ∧ s ∈ l then s :: l.erase s else l
  | none => l

/-- ContactService.consolidateContacts: deduplicated truthy emails and
phone numbers with the primary contact's own values forced to the front,
ids of the secondary contacts, and the primary contact's id under the key
primaryContatctId. -/
def consolidateContacts (allContacts : List Contact) (primaryContact : Contact) :
    IdentifyResponseDto :=
  let emails := jsSetDedup (truthyValues (allContacts.map (·.email)))
  let phoneNumbers := jsSetDedup (truthyValues (allContacts.map (·.phoneNumber)))
  let secondaryContactIds :=
    (allContacts.filter fun c => decide (c.linkPrecedence = .secondary)).map (·.id)
  { contact :=
      { primaryContatctId := primaryContact.id
        emails := moveToFront primaryContact.email emails
        phoneNumbers := moveToFront primaryContact.phoneNumber phoneNumbers
        secondaryContactIds := secondaryContactIds } }

/-- ContactService.reassignPrimaryContacts: every given contact other than
the earliest primary becomes secondary, linked to the earliest primary,
with updatedAt refreshed. -/
def reassignPrimaryContacts (otherPrimaryContacts : List Contact)
    (earliestPrimary : Contact) (now : Nat) : List Contact :=
  (otherPrimaryContacts.filter fun c => decide (c.id ≠ earliestPrimary.id)).map
    fun c =>
      { c with linkPrecedence := .secondary
               linkedId := some earliestPrimary.id
               updatedAt := now }

/-- repository.save of an entity that already carries an id: replace the
stored row with that id. -/
def DB.saveExisting (db : DB) (c : Contact) : DB :=
  { db with store := db.store.map fun d => if d.id = c.id then c else d }

/-- repository.create followed by save of a fresh entity: the store
assigns the id and the timestamps and appends the row. -/
def DB.insert (db : DB) (email phoneNumber : Option String)
    (linkedId : Option Nat) (linkPrecedence : LinkPrecedence) : Contact × DB :=
  let c : Contact :=
    { id := db.nextId, email := email, phoneNumber := phoneNumber
      linkedId := linkedId, linkPrecedence := linkPrecedence
      createdAt := db.clock, updatedAt := db.clock, deletedAt := none }
  (c, { store := db.store ++ [c], nextId := db.nextId + 1, clock := db.clock + 1 })

/-- A store write issued by one reconciliation call, in issue order. -/
inductive StoreEvent where
  | insert (id : Nat)
  | update (id : Nat)
deriving Repr, DecidableEq

/-- The errors the service throws. -/
inductive ContactError where
  | badRequest
  | internalServerError
deriving Repr, DecidableEq

/-- The branch of ContactService.identify taken when the matcher returned
a non-empty contact list (written head first): determine the primary
contact, save it if its precedence differs from the first matched
contact's, create a new secondary when hasNewInfo holds, then demote the
other primary contacts onto the createdAt-earliest element of the matched
list (the new secondary included), and consolidate the re-queried
cluster. -/
def identifyMatched (email phoneNumber : Option String) (db : DB)
    (c0 : Contact) (rest : List Contact) :
    DB × Except ContactError IdentifyResponseDto × List StoreEvent :=
  let primaryContact := determinePrimaryContact c0 rest
  let promote := primaryContact.linkPrecedence ≠ c0.linkPrecedence
  let db1 := if promote then db.saveExisting primaryContact else db
  let log1 : List StoreEvent :=
    if promote then [.update primaryContact.id] else []
  let newInfo := hasNewInfo (c0 :: rest) email phoneNumber
  let saved := (db1.insert email phoneNumber (some primaryContact.id) .secondary).1
  let db2 :=
    if newInfo then (db1.insert email phoneNumber (some primaryContact.id) .secondary).2
    else db1
  let tail2 := if newInfo then rest ++ [saved] else rest
  let log2 : List StoreEvent := if newInfo then [.insert saved.id] else []
  let otherPrimaryContacts :=
    findOtherPrimaryContacts email phoneNumber primaryContact.id db2
  let earliestPrimary := reduceEarliest c0 tail2
  let contactsToUpdate :=
    reassignPrimaryContacts otherPrimaryContacts earliestPrimary db2.clock
  let db3 :=
    if otherPrimaryContacts.isEmpty then db2
    else contactsToUpdate.foldl DB.saveExisting db2
  let log3 : List StoreEvent :=
    if otherPrimaryContacts.isEmpty then []
    else contactsToUpdate.map fun c => StoreEvent.update c.id
  let allContacts := findAllRelatedContacts primaryContact.id db3
  (db3, .ok (consolidateContacts allContacts primaryContact),
   log1 ++ log2 ++ log3)

/-- ContactService.identify.  Returns the resulting store, the response or
error, and the store writes in the order the source issues them: the
possible promotion save, then the possible new-secondary insert, then the
merge demotion saves.  An error leaves the store untouched. -/
def identify (data : IdentifyRequestDto) (db : DB) :
    DB × Except ContactError IdentifyResponseDto × List StoreEvent :=
  let email := data.email
  let phoneNumber := data.phoneNumber
  if !strTruthy email && !strTruthy phoneNumber then
    (db, .error .badRequest, [])
  else
    match findContactsByEmailOrPhone email phoneNumber db with
    | [] =>
        let saved := (db.insert email phoneNumber none .primary).1
        ((db.insert email phoneNumber none .primary).2,
         .ok (consolidateContacts [saved] saved), [.insert saved.id])
    | c0 :: rest => identifyMatched email phoneNumber db c0 rest

/-- The store left behind by one call (errors leave it unchanged). -/
def identifyDB (data : IdentifyRequestDto) (db : DB) : DB :=
  (identify data db).1

/-- The response or error of one call. -/
def identifyResult (data : IdentifyRequestDto) (db : DB) :
    Except ContactError IdentifyResponseDto :=
  (identify data db).2.1

/-- The write log of one call. -/
def identifyLog (data : IdentifyRequestDto) (db : DB) : List StoreEvent :=
  (identify data db).2.2

/-- Run a sequence of reconciliation requests from a starting store. -/
def runRequests (reqs : List IdentifyRequestDto) (db : DB) : DB :=
  reqs.foldl (fun s r => identifyDB r s) db

/-- Look a row up by id. -/
def DB.byId (db : DB) (id : Nat) : Option Contact :=
  db.store.find? fun c => decide (c.id = id)

/-- A convenient request literal. -/
def req (email phoneNumber : Option String) : IdentifyRequestDto :=
  { email := email, phoneNumber := phoneNumber }

/-! ## Stage decomposition of the matched branch

The following definitions name the intermediate stores of identifyMatched;
each equation with identifyMatched holds by definitional unfolding. -/

/-- The store after the possible promotion save of identifyMatched. -/
def matchedDB1 (db : DB) (c0 : Contact) (rest : List Contact) : DB :=
  if (determinePrimaryContact c0 rest).linkPrecedence ≠ c0.linkPrecedence then
    db.saveExisting (determinePrimaryContact c0 rest)
  else db

/-- The secondary contact identifyMatched would insert. -/
def matchedSaved (email phoneNumber : Option String) (db : DB)
    (c0 : Contact) (rest : List Contact) : Contact :=
  ((matchedDB1 db c0 rest).insert email phoneNumber
    (some (determinePrimaryContact c0 rest).id) .secondary).1

/-- The store after the possible new-secondary insert of identifyMatched. -/
def matchedDB2 (email phoneNumber : Option String) (db : DB)
    (c0 : Contact) (rest : List Contact) : DB :=
  if hasNewInfo (c0 :: rest) email phoneNumber then
    ((matchedDB1 db c0 rest).insert email phoneNumber
      (some (determinePrimaryContact c0 rest).id) .secondary).2
  else matchedDB1 db c0 rest

/-- The in-memory contacts array of identifyMatched after the push of the
new secondary, tail part (the head stays the first matched contact). -/
def matchedTail2 (email phoneNumber : Option String) (db : DB)
    (c0 : Contact) (rest : List Contact) : List Contact :=
  if hasNewInfo (c0 :: rest) email phoneNumber then
    rest ++ [matchedSaved email phoneNumber db c0 rest]
  else rest

/-- The otherPrimaryContacts query of identifyMatched. -/
def matchedOthers (email phoneNumber : Option String) (db : DB)
    (c0 : Contact) (rest : List Contact) : List Contact :=
  findOtherPrimaryContacts email phoneNumber (determinePrimaryContact c0 rest).id
    (matchedDB2 email phoneNumber db c0 rest)

/-- The contactsToUpdate list of identifyMatched. -/
def matchedToUpdate (email phoneNumber : Option String) (db : DB)
    (c0 : Contact) (rest : List Contact) : List Contact :=
  reassignPrimaryContacts (matchedOthers email phoneNumber db c0 rest)
    (reduceEarliest c0 (matchedTail2 email phoneNumber db c0 rest))
    (matchedDB2 email phoneNumber db c0 rest).clock

/-- The final store of identifyMatched. -/
def matchedDB3 (email phoneNumber : Option String) (db : DB)
    (c0 : Contact) (rest : List Contact) : DB :=
  if (matchedOthers email phoneNumber db c0 rest).isEmpty then
    matchedDB2 email phoneNumber db c0 rest
  else
    (matchedToUpdate email phoneNumber db c0 rest).foldl DB.saveExisting
      (matchedDB2 email phoneNumber db c0 rest)


/-! ## Specification-side definitions -/

/-- The Fact Recorder condition as the specification words it: the email
is present and no matched contact carries exactly that email, or the phone
number is present and no matched contact carries exactly that phone
number. -/
def hasNewInfoSpec (contacts : List Contact) (email phoneNumber : Option String) :
    Prop :=
  (email ≠ none ∧ ∀ c ∈ contacts, c.email ≠ email)
    ∨ (phoneNumber ≠ none ∧ ∀ c ∈ contacts, c.phoneNumber ≠ phoneNumber)

instance (contacts : List Contact) (email phoneNumber : Option String) :
    Decidable (hasNewInfoSpec contacts email phoneNumber) := by
  unfold hasNewInfoSpec; infer_instance

/-- Representation invariants of the store that the empty store enjoys and
every write of the service preserves: row ids are pairwise distinct and
below the id sequence, and created-at values are below the clock. -/
def DB.WF (db : DB) : Prop :=
  (∀ c ∈ db.store, c.id < db.nextId)
    ∧ (∀ c ∈ db.store, c.createdAt < db.clock)
    ∧ (db.store.map Contact.id).Nodup

instance (db : DB) : Decidable db.WF := by
  unfold DB.WF; infer_instance

/-- The states reachable from the empty store by reconciliation calls. -/
inductive Reachable : DB → Prop where
  | empty : Reachable DB.empty
  | step (r : IdentifyRequestDto) {s : DB} : Reachable s → Reachable (identifyDB r s)

/-! ## Concrete scenarios used as counterexamples and failing inputs -/

/-- Scenario: primary 1 = (A,1); primary 2 = (B,2); secondary 3 = (B,3)
under 2; then (A,2) bridges the two clusters and demotes 2 under 1. -/
def cascadeTrace : List IdentifyRequestDto :=
  [req (some "A") (some "1"), req (some "B") (some "2"),
   req (some "B") (some "3"), req (some "A") (some "2")]

/-- Scenario: primary 1 = (A,1); secondary 2 = (A,2) under 1; then (B,2)
matches only the secondary 2 and persists it as primary. -/
def promoteTrace : List IdentifyRequestDto :=
  [req (some "A") (some "1"), req (some "A") (some "2"),
   req (some "B") (some "2")]

/-- Scenario extending cascadeTrace until a merge whose matched set has a
secondary as its earliest element: the final call (B,3) matches secondary 2
and primaries 3 and 4, and demotes 4 onto the secondary 2. -/
def mergeTargetTrace : List IdentifyRequestDto :=
  [req (some "A") (some "1"), req (some "B") (some "2"),
   req (some "B") (some "3"), req (some "A") (some "2"),
   req (some "C") (some "3"), req (some "C") (some "9"),
   req (some "B") (some "3")]

/-- The secondaryContactIds of a successful result, none on error. -/
def okSecondaryIds : Except ContactError IdentifyResponseDto → Option (List Nat)
  | .ok resp => some resp.contact.secondaryContactIds
  | .error _ => none

end Bitespeed

namespace Bitespeed

/-! ## Claim theorems -/

/-- Claim C9: a reconciliation request in which both email and phoneNumber
are absent fails with the bad-request error and leaves the store exactly
as it was, issuing no store writes. -/
theorem c9_both_absent_rejected (s : DB) :
    identify (req none none) s = (s, .error .badRequest, []) := rfl

/-- Claim C10: a request whose email and phoneNumber are both present but
empty strings is rejected with the bad-request error before any store
access, and an empty-string email or phoneNumber behaves exactly like an
absent one in the hasNewInfo decision of the Fact Recorder. -/
theorem c10_empty_string_treated_absent :
    (∀ s : DB, identify (req (some "") (some "")) s = (s, .error .badRequest, []))
      ∧ (∀ (contacts : List Contact) (p : Option String),
          hasNewInfo contacts (some "") p = hasNewInfo contacts none p)
      ∧ (∀ (contacts : List Contact) (e : Option String),
          hasNewInfo contacts e (some "") = hasNewInfo contacts e none) :=
  ⟨fun _ => rfl, fun _ _ => rfl, fun contacts e => by
    simp [hasNewInfo, strTruthy]⟩

/-- Claim C5, counterexample: the serialised contact object has no key
named primaryContactId; the id key is spelled primaryContatctId. -/
theorem c5_counterexample :
    "primaryContactId" ∉ contactResponseKeys
      ∧ "primaryContatctId" ∈ contactResponseKeys := by decide

/-- Claim C5, amended: the consolidated response has the shape
contact / primaryContatctId, emails, phoneNumbers, secondaryContactIds —
the id key is spelled primaryContatctId, not primaryContactId — and the
id field equals the resolved primary contact's id. -/
theorem c5_response_shape (allContacts : List Contact) (primaryContact : Contact) :
    (consolidateContacts allContacts primaryContact).contact.primaryContatctId
        = primaryContact.id
      ∧ contactResponseKeys
          = ["primaryContatctId", "emails", "phoneNumbers", "secondaryContactIds"] :=
  ⟨rfl, rfl⟩

/-- Claim C1: evaluation of the code at the failing input.  Running the
cascade scenario, the bridging call (A,2) does merge the two clusters
(its otherPrimaries set is non-empty) and demotes contact 2 under
contact 1, yet contact 3 — whose linkedId equalled the demoted primary's
id 2 before the merge — still has linkedId 2 afterwards, so a secondary's
linkedId refers to a contact that is itself secondary. -/
theorem c1_merge_leaves_stale_link :
    (findOtherPrimaryContacts (some "A") (some "2") 1
        (runRequests (cascadeTrace.take 3) DB.empty) ≠ [])
      ∧ ((runRequests (cascadeTrace.take 3) DB.empty).byId 3).map Contact.linkedId
          = some (some 2)
      ∧ ((runRequests cascadeTrace DB.empty).byId 2).map Contact.linkPrecedence
          = some (.secondary)
      ∧ ((runRequests cascadeTrace DB.empty).byId 3).map Contact.linkedId
          = some (some 2) := by decide

/-- Claim C4, counterexample: in the promotion scenario, contact 2 is
first persisted as a secondary, and after the call (B,2) — whose matched
set contains no primary — it is persisted as a primary while its linkedId
is still populated, refuting both halves of the claim. -/
theorem c4_counterexample :
    ((runRequests (promoteTrace.take 2) DB.empty).byId 2).map
        (fun c => (c.linkPrecedence, c.linkedId)) = some (.secondary, some 1)
      ∧ ((runRequests promoteTrace DB.empty).byId 2).map
          (fun c => (c.linkPrecedence, c.linkedId)) = some (.primary, some 1) := by
  decide

/-- Claim C2, counterexample: in the final call (B,3) of the merge-target
scenario the matched set is contacts 2, 3, 4, primaryContact is contact 3
and otherPrimaries is the non-empty set containing contact 4, whose
createdAt-earliest member is contact 3; yet the demoted contact 4 is
re-linked to contact 2 — the earliest matched contact, a secondary — and
not to contact 3. -/
theorem c2_counterexample :
    (findContactsByEmailOrPhone (some "B") (some "3")
        (runRequests (mergeTargetTrace.take 6) DB.empty)).map Contact.id = [2, 3, 4]
      ∧ (determinePrimaryContact
            { id := 2, phoneNumber := some "2", email := some "B", linkedId := some 1
              linkPrecedence := .secondary, createdAt := 1, updatedAt := 3 }
            [{ id := 3, phoneNumber := some "3", email := some "B", linkedId := some 2
               linkPrecedence := .primary, createdAt := 2, updatedAt := 2 },
             { id := 4, phoneNumber := some "3", email := some "C", linkedId := some 3
               linkPrecedence := .primary, createdAt := 3, updatedAt := 3 }]).id = 3
      ∧ (findOtherPrimaryContacts (some "B") (some "3") 3
            (runRequests (mergeTargetTrace.take 6) DB.empty)).map Contact.id = [4]
      ∧ ((runRequests mergeTargetTrace DB.empty).byId 4).map
          (fun c => (c.linkPrecedence, c.linkedId)) = some (.secondary, some 2)
      ∧ ((runRequests mergeTargetTrace DB.empty).byId 2).map Contact.linkPrecedence
          = some (.secondary) := by decide

/-- Claim C3, counterexample: in the call (A,7) on the promotion-scenario
store, both a new secondary (contact 4) is created and a merge demotes
contact 2; the write log of that call is the insert of contact 4 followed
by the update of contact 2, so the Fact Recorder ran before the merge, not
after it. -/
theorem c3_counterexample :
    identifyLog (req (some "A") (some "7")) (runRequests promoteTrace DB.empty)
      = [.insert 4, .update 2] := by decide


/-- Claim C8, counterexample: on the promotion-scenario store, the call
(none, 1) resolves the cluster of contact 1 and returns no secondary ids;
the following call (A, none) — the email A being already attached to that
same cluster — returns secondaryContactIds of length one, strictly longer,
while the number of stored contacts stays three. -/
theorem c8_counterexample :
    okSecondaryIds
        (identifyResult (req none (some "1")) (runRequests promoteTrace DB.empty))
        = some []
      ∧ okSecondaryIds
          (identifyResult (req (some "A") none)
            (identifyDB (req none (some "1")) (runRequests promoteTrace DB.empty)))
          = some [2]
      ∧ (identifyDB (req (some "A") none)
            (identifyDB (req none (some "1"))
              (runRequests promoteTrace DB.empty))).store.length
          = (runRequests promoteTrace DB.empty).store.length := by decide

end Bitespeed

namespace Bitespeed

lemma identifyMatched_fst (email phoneNumber : Option String) (db : DB)
    (c0 : Contact) (rest : List Contact) :
    (identifyMatched email phoneNumber db c0 rest).1
      = matchedDB3 email phoneNumber db c0 rest := rfl

lemma identifyMatched_snd (email phoneNumber : Option String) (db : DB)
    (c0 : Contact) (rest : List Contact) :
    (identifyMatched email phoneNumber db c0 rest).2.1
      = .ok (consolidateContacts
          (findAllRelatedContacts (determinePrimaryContact c0 rest).id
            (matchedDB3 email phoneNumber db c0 rest))
          (determinePrimaryContact c0 rest)) := rfl

lemma identifyMatched_log (email phoneNumber : Option String) (db : DB)
    (c0 : Contact) (rest : List Contact) :
    (identifyMatched email phoneNumber db c0 rest).2.2
      = (if (determinePrimaryContact c0 rest).linkPrecedence ≠ c0.linkPrecedence
          then [StoreEvent.update (determinePrimaryContact c0 rest).id] else [])
        ++ (if hasNewInfo (c0 :: rest) email phoneNumber
            then [StoreEvent.insert (matchedSaved email phoneNumber db c0 rest).id]
            else [])
        ++ (if (matchedOthers email phoneNumber db c0 rest).isEmpty then []
            else (matchedToUpdate email phoneNumber db c0 rest).map
              fun c => StoreEvent.update c.id) := rfl

/-! ## Basic facts about the store operations -/

lemma saveExisting_store_length (db : DB) (c : Contact) :
    (db.saveExisting c).store.length = db.store.length := by
  simp [DB.saveExisting]

lemma saveExisting_nextId (db : DB) (c : Contact) :
    (db.saveExisting c).nextId = db.nextId := rfl

lemma saveExisting_clock (db : DB) (c : Contact) :
    (db.saveExisting c).clock = db.clock := rfl

lemma foldl_saveExisting_store_length (l : List Contact) :
    ∀ db : DB, (l.foldl DB.saveExisting db).store.length = db.store.length := by
  induction l with
  | nil => intro db; rfl
  | cons u l ih =>
      intro db
      rw [List.foldl_cons, ih, saveExisting_store_length]

lemma foldl_saveExisting_nextId (l : List Contact) :
    ∀ db : DB, (l.foldl DB.saveExisting db).nextId = db.nextId := by
  induction l with
  | nil => intro db; rfl
  | cons u l ih => intro db; rw [List.foldl_cons, ih, saveExisting_nextId]

lemma foldl_saveExisting_clock (l : List Contact) :
    ∀ db : DB, (l.foldl DB.saveExisting db).clock = db.clock := by
  induction l with
  | nil => intro db; rfl
  | cons u l ih => intro db; rw [List.foldl_cons, ih, saveExisting_clock]

lemma mem_saveExisting {x c : Contact} {db : DB}
    (hx : x ∈ (db.saveExisting c).store) : x = c ∨ x ∈ db.store := by
  simp only [DB.saveExisting, List.mem_map] at hx
  obtain ⟨d, hd, hdx⟩ := hx
  by_cases h : d.id = c.id
  · rw [if_pos h] at hdx; exact .inl hdx.symm
  · rw [if_neg h] at hdx; exact .inr (hdx ▸ hd)

lemma mem_foldl_saveExisting {x : Contact} (l : List Contact) :
    ∀ db : DB, x ∈ (l.foldl DB.saveExisting db).store → x ∈ l ∨ x ∈ db.store := by
  induction l with
  | nil => intro db hx; exact .inr hx
  | cons u l ih =>
      intro db hx
      rw [List.foldl_cons] at hx
      rcases ih _ hx with h | h
      · exact .inl (List.mem_cons_of_mem _ h)
      · rcases mem_saveExisting h with rfl | h2
        · exact .inl (List.mem_cons_self _ _)
        · exact .inr h2

lemma insert_fst (db : DB) (e p : Option String) (li : Option Nat)
    (lp : LinkPrecedence) :
    (db.insert e p li lp).1
      = { id := db.nextId, email := e, phoneNumber := p, linkedId := li
          linkPrecedence := lp, createdAt := db.clock, updatedAt := db.clock
          deletedAt := none } := rfl

lemma insert_snd_store (db : DB) (e p : Option String) (li : Option Nat)
    (lp : LinkPrecedence) :
    (db.insert e p li lp).2.store = db.store ++ [(db.insert e p li lp).1] := rfl

lemma mem_insert_store {x : Contact} {db : DB} {e p : Option String}
    {li : Option Nat} {lp : LinkPrecedence}
    (hx : x ∈ (db.insert e p li lp).2.store) :
    x ∈ db.store ∨ x = (db.insert e p li lp).1 := by
  rw [insert_snd_store] at hx
  rcases List.mem_append.mp hx with h | h
  · exact .inl h
  · exact .inr (List.mem_singleton.mp h)

lemma mem_reassign {l : List Contact} {e : Contact} {now : Nat} {x : Contact}
    (hx : x ∈ reassignPrimaryContacts l e now) :
    x.linkPrecedence = .secondary ∧ x.linkedId = some e.id := by
  simp only [reassignPrimaryContacts, List.mem_map] at hx
  obtain ⟨c, _, rfl⟩ := hx
  exact ⟨rfl, rfl⟩

/-! ## Facts about reduceEarliest and determinePrimaryContact -/

lemma reduceEarliest_cons (c0 r : Contact) (rest : List Contact) :
    reduceEarliest c0 (r :: rest)
      = reduceEarliest (if c0.createdAt < r.createdAt then c0 else r) rest := rfl

lemma reduceEarliest_mem (c0 : Contact) (rest : List Contact) :
    reduceEarliest c0 rest ∈ c0 :: rest := by
  induction rest generalizing c0 with
  | nil => simp [reduceEarliest]
  | cons r rest ih =>
      rw [reduceEarliest_cons]
      by_cases h : c0.createdAt < r.createdAt
      · rw [if_pos h]
        have := ih c0
        simp only [List.mem_cons] at this ⊢
        tauto
      · rw [if_neg h]
        have := ih r
        simp only [List.mem_cons] at this ⊢
        tauto

lemma reduceEarliest_le (c0 : Contact) (rest : List Contact) :
    ∀ c ∈ c0 :: rest, (reduceEarliest c0 rest).createdAt ≤ c.createdAt := by
  induction rest generalizing c0 with
  | nil =>
      intro c hc
      rw [List.mem_singleton.mp hc]
      exact le_of_eq rfl
  | cons r rest ih =>
      intro c hc
      rw [reduceEarliest_cons]
      have hhead : (if c0.createdAt < r.createdAt then c0 else r).createdAt
          ≤ c0.createdAt ∧ (if c0.createdAt < r.createdAt then c0 else r).createdAt
          ≤ r.createdAt := by
        by_cases h : c0.createdAt < r.createdAt
        · rw [if_pos h]; exact ⟨le_rfl, le_of_lt h⟩
        · rw [if_neg h]; exact ⟨le_of_not_lt h, le_rfl⟩
      have hle := ih (if c0.createdAt < r.createdAt then c0 else r)
      have hself := hle _ (List.mem_cons_self _ _)
      rcases List.mem_cons.mp hc with rfl | hc
      · exact le_trans hself hhead.1
      · rcases List.mem_cons.mp hc with rfl | hc
        · exact le_trans hself hhead.2
        · exact hle _ (List.mem_cons_of_mem _ hc)

lemma reduceEarliest_append_newest (c0 : Contact) (rest : List Contact)
    (x : Contact) (hx : (reduceEarliest c0 rest).createdAt < x.createdAt) :
    reduceEarliest c0 (rest ++ [x]) = reduceEarliest c0 rest := by
  unfold reduceEarliest at *
  rw [List.foldl_append]
  simp [hx]

lemma determinePrimaryContact_precedence (c0 : Contact) (rest : List Contact) :
    (determinePrimaryContact c0 rest).linkPrecedence = .primary := by
  rcases h : (c0 :: rest).find? (fun c => decide (c.linkPrecedence = .primary))
    with _ | c
  · simp [determinePrimaryContact, h]
  · have hc := List.find?_some h
    simp only [determinePrimaryContact, h]
    exact of_decide_eq_true hc

lemma determinePrimaryContact_shape (c0 : Contact) (rest : List Contact) :
    ∃ c ∈ c0 :: rest, determinePrimaryContact c0 rest = c
      ∨ determinePrimaryContact c0 rest = { c with linkPrecedence := .primary } := by
  rcases h : (c0 :: rest).find? (fun c => decide (c.linkPrecedence = .primary))
    with _ | c
  · exact ⟨reduceEarliest c0 rest, reduceEarliest_mem c0 rest,
      .inr (by simp [determinePrimaryContact, h])⟩
  · exact ⟨c, List.mem_of_find?_eq_some h,
      .inl (by simp [determinePrimaryContact, h])⟩

/-! ## Truthiness and the new-information predicate -/

lemma strTruthy_iff {o : Option String} (h : o ≠ some "") :
    strTruthy o = true ↔ o ≠ none := by
  cases o with
  | none => simp [strTruthy]
  | some s =>
      have hs : s ≠ "" := fun hs => h (by rw [hs])
      simp [strTruthy, hs]

lemma hasNewInfo_iff_spec {contacts : List Contact} {e p : Option String}
    (he : e ≠ some "") (hp : p ≠ some "") :
    hasNewInfo contacts e p = true ↔ hasNewInfoSpec contacts e p := by
  unfold hasNewInfo hasNewInfoSpec
  simp [strTruthy_iff he, strTruthy_iff hp, List.any_eq_true, not_exists]

lemma validation_passes {r : IdentifyRequestDto} {db : DB} {c0 : Contact}
    {rest : List Contact}
    (hwe : r.email ≠ some "") (hwp : r.phoneNumber ≠ some "")
    (hC : findContactsByEmailOrPhone r.email r.phoneNumber db = c0 :: rest) :
    (!strTruthy r.email && !strTruthy r.phoneNumber) = false := by
  have hc0 : c0 ∈ findContactsByEmailOrPhone r.email r.phoneNumber db := by
    rw [hC]; exact List.mem_cons_self _ _
  have hm := (of_decide_eq_true (List.mem_filter.mp hc0).2).1
  rcases hm with ⟨hne, _⟩ | ⟨hnp, _⟩
  · have h1 : strTruthy r.email = true := (strTruthy_iff hwe).mpr hne
    simp [h1]
  · have h1 : strTruthy r.phoneNumber = true := (strTruthy_iff hwp).mpr hnp
    simp [h1]

lemma identify_eq_matched {r : IdentifyRequestDto} {db : DB} {c0 : Contact}
    {rest : List Contact}
    (hv : (!strTruthy r.email && !strTruthy r.phoneNumber) = false)
    (hC : findContactsByEmailOrPhone r.email r.phoneNumber db = c0 :: rest) :
    identify r db = identifyMatched r.email r.phoneNumber db c0 rest := by
  simp only [identify]
  rw [hv, hC]
  rfl

end Bitespeed

namespace Bitespeed

/-! ## Membership through the stages of the matched branch -/

lemma identify_error_db {r : IdentifyRequestDto} {db : DB}
    (hv : (!strTruthy r.email && !strTruthy r.phoneNumber) = true) :
    identify r db = (db, .error .badRequest, []) := by
  simp only [identify]
  rw [hv]
  rfl

lemma identify_empty_match {r : IdentifyRequestDto} {db : DB}
    (hv : (!strTruthy r.email && !strTruthy r.phoneNumber) = false)
    (hC : findContactsByEmailOrPhone r.email r.phoneNumber db = []) :
    identify r db
      = ((db.insert r.email r.phoneNumber none .primary).2,
         .ok (consolidateContacts [(db.insert r.email r.phoneNumber none .primary).1]
           (db.insert r.email r.phoneNumber none .primary).1),
         [.insert (db.insert r.email r.phoneNumber none .primary).1.id]) := by
  simp only [identify]
  rw [hv, hC]
  rfl

lemma mem_matchedDB1 {db : DB} {c0 : Contact} {rest : List Contact} {x : Contact}
    (hx : x ∈ (matchedDB1 db c0 rest).store) :
    x = determinePrimaryContact c0 rest ∨ x ∈ db.store := by
  unfold matchedDB1 at hx
  split at hx
  · exact mem_saveExisting hx
  · exact .inr hx

lemma mem_matchedDB2 {email phoneNumber : Option String} {db : DB} {c0 : Contact}
    {rest : List Contact} {x : Contact}
    (hx : x ∈ (matchedDB2 email phoneNumber db c0 rest).store) :
    x = matchedSaved email phoneNumber db c0 rest
      ∨ x = determinePrimaryContact c0 rest ∨ x ∈ db.store := by
  unfold matchedDB2 at hx
  split at hx
  · rcases mem_insert_store hx with h | h
    · exact .inr (mem_matchedDB1 h)
    · exact .inl h
  · exact .inr (mem_matchedDB1 hx)

lemma mem_matchedDB3 {email phoneNumber : Option String} {db : DB} {c0 : Contact}
    {rest : List Contact} {x : Contact}
    (hx : x ∈ (matchedDB3 email phoneNumber db c0 rest).store) :
    x ∈ matchedToUpdate email phoneNumber db c0 rest
      ∨ x = matchedSaved email phoneNumber db c0 rest
      ∨ x = determinePrimaryContact c0 rest ∨ x ∈ db.store := by
  unfold matchedDB3 at hx
  split at hx
  · exact .inr (mem_matchedDB2 hx)
  · rcases mem_foldl_saveExisting _ _ hx with h | h
    · exact .inl h
    · exact .inr (mem_matchedDB2 h)

lemma identify_preserves_secondary_link (r : IdentifyRequestDto) (db : DB)
    (h : ∀ c ∈ db.store, c.linkPrecedence = .secondary → c.linkedId ≠ none) :
    ∀ c ∈ (identifyDB r db).store,
      c.linkPrecedence = .secondary → c.linkedId ≠ none := by
  intro c hc hsec
  by_cases hv : (!strTruthy r.email && !strTruthy r.phoneNumber) = true
  · rw [identifyDB, identify_error_db hv] at hc
    exact h c hc hsec
  · have hv2 : (!strTruthy r.email && !strTruthy r.phoneNumber) = false := by
      revert hv
      cases (!strTruthy r.email && !strTruthy r.phoneNumber) <;> simp
    rcases hfind : findContactsByEmailOrPhone r.email r.phoneNumber db
      with _ | ⟨c0, rest⟩
    · rw [identifyDB, identify_empty_match hv2 hfind] at hc
      rcases mem_insert_store hc with h1 | h1
      · exact h c h1 hsec
      · rw [insert_fst] at h1
        rw [h1] at hsec
        cases hsec
    · rw [identifyDB, identify_eq_matched hv2 hfind, identifyMatched_fst] at hc
      rcases mem_matchedDB3 hc with h1 | h1 | h1 | h1
      · unfold matchedToUpdate at h1
        have h2 := (mem_reassign h1).2
        rw [h2]
        simp
      · rw [h1, matchedSaved, insert_fst]
        simp
      · rw [h1, determinePrimaryContact_precedence] at hsec
        cases hsec
      · exact h c h1 hsec

/-- Claim C4, amended theorem: after every successful reconciliation —
indeed in every store reachable from the empty store by reconciliation
calls — every stored contact with linkPrecedence secondary has its
linkedId populated.  (The other half of the original claim fails: a
primary may carry a populated linkedId and a formerly-secondary contact
may later be persisted as primary, as the counterexample shows.) -/
theorem c4_secondary_has_linkedId {s : DB} (hs : Reachable s) :
    ∀ c ∈ s.store, c.linkPrecedence = .secondary → c.linkedId ≠ none := by
  induction hs with
  | empty => intro c hc; cases hc
  | step r hrs ih => exact identify_preserves_secondary_link r _ ih

/-- Claim C4, witness: the amended theorem applied to the promotion
scenario's store, which is reachable in three calls, at its stored
contact 3. -/
theorem c4_witness :
    ({ id := 3, phoneNumber := some "2", email := some "B", linkedId := some 2
       linkPrecedence := .secondary, createdAt := 2, updatedAt := 2 } :
        Contact).linkedId ≠ none :=
  c4_secondary_has_linkedId
    (Reachable.step (req (some "B") (some "2"))
      (Reachable.step (req (some "A") (some "2"))
        (Reachable.step (req (some "A") (some "1")) Reachable.empty)))
    _ (by decide) (by decide)

end Bitespeed

namespace Bitespeed

/-! ## The no-new-information case -/

lemma strTruthy_ne_none {o : Option String} (h : strTruthy o = true) :
    o ≠ none := by
  cases o with
  | none => cases h
  | some s => simp

lemma carrier_mem_matched {s : DB} {r : IdentifyRequestDto} {c : Contact}
    (hc : c ∈ s.store) (hdel : c.deletedAt = none)
    (hm : matchesRequest r.email r.phoneNumber c) :
    c ∈ findContactsByEmailOrPhone r.email r.phoneNumber s := by
  unfold findContactsByEmailOrPhone
  exact List.mem_filter.mpr ⟨hc, decide_eq_true ⟨hm, hdel⟩⟩

lemma matchedDB1_length (db : DB) (c0 : Contact) (rest : List Contact) :
    (matchedDB1 db c0 rest).store.length = db.store.length := by
  unfold matchedDB1
  split
  · exact saveExisting_store_length _ _
  · rfl

lemma matchedDB2_no_insert {email phoneNumber : Option String} {db : DB}
    {c0 : Contact} {rest : List Contact}
    (hnew : hasNewInfo (c0 :: rest) email phoneNumber = false) :
    matchedDB2 email phoneNumber db c0 rest = matchedDB1 db c0 rest := by
  unfold matchedDB2
  rw [hnew]
  rfl

lemma matchedDB3_length_no_insert {email phoneNumber : Option String} {db : DB}
    {c0 : Contact} {rest : List Contact}
    (hnew : hasNewInfo (c0 :: rest) email phoneNumber = false) :
    (matchedDB3 email phoneNumber db c0 rest).store.length = db.store.length := by
  unfold matchedDB3
  rw [matchedDB2_no_insert hnew]
  split
  · exact matchedDB1_length db c0 rest
  · rw [foldl_saveExisting_store_length]
    exact matchedDB1_length db c0 rest

lemma hasNewInfo_false_of_attached {s : DB} {r : IdentifyRequestDto}
    {c0 : Contact} {rest : List Contact}
    (hC : findContactsByEmailOrPhone r.email r.phoneNumber s = c0 :: rest)
    (hattE : r.email ≠ none →
      ∃ c ∈ s.store, c.deletedAt = none ∧ c.email = r.email)
    (hattP : r.phoneNumber ≠ none →
      ∃ c ∈ s.store, c.deletedAt = none ∧ c.phoneNumber = r.phoneNumber) :
    hasNewInfo (c0 :: rest) r.email r.phoneNumber = false := by
  have hE : (strTruthy r.email
      && !((c0 :: rest).any fun c => c.email == r.email)) = false := by
    cases he : strTruthy r.email with
    | false => simp
    | true =>
        obtain ⟨c, hc, hdel, hem⟩ := hattE (strTruthy_ne_none he)
        have hmem : c ∈ c0 :: rest := by
          rw [← hC]
          exact carrier_mem_matched hc hdel (Or.inl ⟨strTruthy_ne_none he, hem⟩)
        have hany : ((c0 :: rest).any fun c => c.email == r.email) = true :=
          List.any_eq_true.mpr ⟨c, hmem, by simp [hem]⟩
        simp [hany]
  have hP : (strTruthy r.phoneNumber
      && !((c0 :: rest).any fun c => c.phoneNumber == r.phoneNumber)) = false := by
    cases hp : strTruthy r.phoneNumber with
    | false => simp
    | true =>
        obtain ⟨c, hc, hdel, hph⟩ := hattP (strTruthy_ne_none hp)
        have hmem : c ∈ c0 :: rest := by
          rw [← hC]
          exact carrier_mem_matched hc hdel (Or.inr ⟨strTruthy_ne_none hp, hph⟩)
        have hany : ((c0 :: rest).any fun c => c.phoneNumber == r.phoneNumber)
            = true := List.any_eq_true.mpr ⟨c, hmem, by simp [hph]⟩
        simp [hany]
  unfold hasNewInfo
  rw [hE, hP]
  rfl

/-- Claim C8, amended theorem: a reconciliation whose present attribute
values are each already attached to some stored non-deleted contact
inserts no row — the number of stored contacts is unchanged.  (The other
half of the original claim fails: the response's secondaryContactIds can
grow on such a repeated call, because a promoted primary inside the
cluster may be demoted by it, as the counterexample shows.) -/
theorem c8_no_insert_on_known_attributes (s : DB) (r : IdentifyRequestDto)
    (hattE : r.email ≠ none →
      ∃ c ∈ s.store, c.deletedAt = none ∧ c.email = r.email)
    (hattP : r.phoneNumber ≠ none →
      ∃ c ∈ s.store, c.deletedAt = none ∧ c.phoneNumber = r.phoneNumber) :
    (identifyDB r s).store.length = s.store.length := by
  by_cases hv : (!strTruthy r.email && !strTruthy r.phoneNumber) = true
  · rw [identifyDB, identify_error_db hv]
  · have hv2 : (!strTruthy r.email && !strTruthy r.phoneNumber) = false := by
      revert hv
      cases (!strTruthy r.email && !strTruthy r.phoneNumber) <;> simp
    rcases hfind : findContactsByEmailOrPhone r.email r.phoneNumber s
      with _ | ⟨c0, rest⟩
    · exfalso
      have hor : strTruthy r.email = true ∨ strTruthy r.phoneNumber = true := by
        revert hv2
        cases strTruthy r.email <;> cases strTruthy r.phoneNumber <;> simp
      rcases hor with h | h
      · obtain ⟨c, hc, hdel, hem⟩ := hattE (strTruthy_ne_none h)
        have hmem :=
          carrier_mem_matched hc hdel (Or.inl ⟨strTruthy_ne_none h, hem⟩)
        rw [hfind] at hmem
        cases hmem
      · obtain ⟨c, hc, hdel, hph⟩ := hattP (strTruthy_ne_none h)
        have hmem :=
          carrier_mem_matched hc hdel (Or.inr ⟨strTruthy_ne_none h, hph⟩)
        rw [hfind] at hmem
        cases hmem
    · rw [identifyDB, identify_eq_matched hv2 hfind, identifyMatched_fst]
      exact matchedDB3_length_no_insert
        (hasNewInfo_false_of_attached hfind hattE hattP)

/-- Claim C8, witness: the amended theorem applied to the promotion
scenario's store and the request (A, absent), whose email A is attached to
the stored cluster. -/
theorem c8_witness :
    (identifyDB (req (some "A") none) (runRequests promoteTrace DB.empty)).store.length
      = (runRequests promoteTrace DB.empty).store.length :=
  c8_no_insert_on_known_attributes (runRequests promoteTrace DB.empty)
    (req (some "A") none) (by decide) (by decide)

end Bitespeed

namespace Bitespeed

/-! ## Row lookup through the store operations -/

lemma matchedDB1_nextId (db : DB) (c0 : Contact) (rest : List Contact) :
    (matchedDB1 db c0 rest).nextId = db.nextId := by
  unfold matchedDB1; split <;> rfl

lemma matchedDB1_clock (db : DB) (c0 : Contact) (rest : List Contact) :
    (matchedDB1 db c0 rest).clock = db.clock := by
  unfold matchedDB1; split <;> rfl

lemma find?_id_map_save (c : Contact) (i : Nat) (h : c.id ≠ i) :
    ∀ l : List Contact,
      ((l.map fun d => if d.id = c.id then c else d).find?
          fun d => decide (d.id = i))
        = l.find? fun d => decide (d.id = i) := by
  intro l
  induction l with
  | nil => rfl
  | cons d l ih =>
      rw [List.map_cons]
      by_cases hd : d.id = c.id
      · rw [if_pos hd,
          List.find?_cons_of_neg _ (by simp [h]),
          List.find?_cons_of_neg _ (by simp [hd ▸ h])]
        exact ih
      · rw [if_neg hd]
        by_cases hdi : d.id = i
        · rw [List.find?_cons_of_pos _ (by simp [hdi]),
            List.find?_cons_of_pos _ (by simp [hdi])]
        · rw [List.find?_cons_of_neg _ (by simp [hdi]),
            List.find?_cons_of_neg _ (by simp [hdi])]
          exact ih

lemma byId_saveExisting_ne {db : DB} {c : Contact} {i : Nat} (h : c.id ≠ i) :
    (db.saveExisting c).byId i = db.byId i := by
  unfold DB.byId DB.saveExisting
  exact find?_id_map_save c i h db.store

lemma byId_foldl_saveExisting_ne (l : List Contact) (i : Nat) :
    ∀ db : DB, (∀ u ∈ l, u.id ≠ i) →
      (l.foldl DB.saveExisting db).byId i = db.byId i := by
  induction l with
  | nil => intro db _; rfl
  | cons u l ih =>
      intro db h
      rw [List.foldl_cons, ih _ fun v hv => h v (List.mem_cons_of_mem _ hv),
        byId_saveExisting_ne (h u (List.mem_cons_self _ _))]

lemma find?_id_append (l : List Contact) (c : Contact) (i : Nat) (hc : c.id = i)
    (h : ∀ d ∈ l, d.id ≠ i) :
    ((l ++ [c]).find? fun d => decide (d.id = i)) = some c := by
  induction l with
  | nil =>
      rw [List.nil_append, List.find?_cons_of_pos _ (by simp [hc])]
  | cons d l ih =>
      rw [List.cons_append,
        List.find?_cons_of_neg _ (by simp [h d (List.mem_cons_self _ _)])]
      exact ih fun v hv => h v (List.mem_cons_of_mem _ hv)

lemma matchedDB2_length_insert {email phoneNumber : Option String} {db : DB}
    {c0 : Contact} {rest : List Contact}
    (hnew : hasNewInfo (c0 :: rest) email phoneNumber = true) :
    (matchedDB2 email phoneNumber db c0 rest).store.length
      = db.store.length + 1 := by
  unfold matchedDB2
  rw [hnew]
  show ((matchedDB1 db c0 rest).insert email phoneNumber _ _).2.store.length = _
  rw [insert_snd_store, List.length_append, matchedDB1_length]
  rfl

lemma matchedDB3_length_eq_db2 (email phoneNumber : Option String) (db : DB)
    (c0 : Contact) (rest : List Contact) :
    (matchedDB3 email phoneNumber db c0 rest).store.length
      = (matchedDB2 email phoneNumber db c0 rest).store.length := by
  unfold matchedDB3
  split
  · rfl
  · exact foldl_saveExisting_store_length _ _

lemma byId_matchedDB3_new (s : DB) (r : IdentifyRequestDto) (c0 : Contact)
    (rest : List Contact) (hwf : s.WF)
    (hC : findContactsByEmailOrPhone r.email r.phoneNumber s = c0 :: rest)
    (hnew : hasNewInfo (c0 :: rest) r.email r.phoneNumber = true) :
    (matchedDB3 r.email r.phoneNumber s c0 rest).byId s.nextId
      = some { id := s.nextId, email := r.email
               phoneNumber := r.phoneNumber
               linkedId := some (determinePrimaryContact c0 rest).id
               linkPrecedence := .secondary, createdAt := s.clock
               updatedAt := s.clock, deletedAt := none } := by
  have hpcid : (determinePrimaryContact c0 rest).id < s.nextId := by
    obtain ⟨c, hcmem, hshape⟩ := determinePrimaryContact_shape c0 rest
    have hcs : c ∈ s.store := by
      have hcf : c ∈ findContactsByEmailOrPhone r.email r.phoneNumber s := by
        rw [hC]; exact hcmem
      exact (List.mem_filter.mp hcf).1
    have hlt := hwf.1 c hcs
    rcases hshape with h | h <;> rw [h] <;> exact hlt
  have hdb1ids : ∀ d ∈ (matchedDB1 s c0 rest).store, d.id ≠ s.nextId := by
    intro d hd
    rcases mem_matchedDB1 hd with rfl | hd2
    · exact Nat.ne_of_lt hpcid
    · exact Nat.ne_of_lt (hwf.1 d hd2)
  have hsaved :
      matchedSaved r.email r.phoneNumber s c0 rest
        = { id := s.nextId, email := r.email, phoneNumber := r.phoneNumber
            linkedId := some (determinePrimaryContact c0 rest).id
            linkPrecedence := .secondary, createdAt := s.clock
            updatedAt := s.clock, deletedAt := none } := by
    rw [matchedSaved, insert_fst, matchedDB1_nextId, matchedDB1_clock]
  have hbyId2 :
      (matchedDB2 r.email r.phoneNumber s c0 rest).byId s.nextId
        = some (matchedSaved r.email r.phoneNumber s c0 rest) := by
    unfold matchedDB2
    rw [hnew]
    show ((matchedDB1 s c0 rest).insert r.email r.phoneNumber _ _).2.byId
        s.nextId = _
    unfold DB.byId
    rw [insert_snd_store]
    exact find?_id_append _ _ _ (by rw [insert_fst, matchedDB1_nextId]) hdb1ids
  have hupd : ∀ u ∈ matchedToUpdate r.email r.phoneNumber s c0 rest,
      u.id ≠ s.nextId := by
    intro u hu
    unfold matchedToUpdate reassignPrimaryContacts at hu
    simp only [List.mem_map] at hu
    obtain ⟨c, hcmem, rfl⟩ := hu
    have hco : c ∈ matchedOthers r.email r.phoneNumber s c0 rest :=
      (List.mem_filter.mp hcmem).1
    unfold matchedOthers findOtherPrimaryContacts at hco
    have hcmem2 := List.mem_filter.mp hco
    have hprops := of_decide_eq_true hcmem2.2
    have hcprim : c.linkPrecedence = .primary := hprops.2.1
    rcases mem_matchedDB2 hcmem2.1 with rfl | rfl | hcs
    · rw [matchedSaved, insert_fst] at hcprim
      cases hcprim
    · exact absurd rfl hprops.2.2.1
    · exact Nat.ne_of_lt (hwf.1 c hcs)
  rw [← hsaved]
  unfold matchedDB3
  split
  · exact hbyId2
  · rw [byId_foldl_saveExisting_ne _ _ _ hupd]
    exact hbyId2

/-- Claim C6: for a reconciliation with a non-empty matched list, exactly
one new row is inserted when the request carries new information — the
email is present and unmatched in C, or the phoneNumber is present and
unmatched in C — and no row is inserted otherwise; the inserted row is a
secondary carrying the request's fields, linked to the resolved primary
contact, created at the current clock.  The request fields are each absent
or non-empty, and the store satisfies its representation invariants. -/
theorem c6_new_secondary_iff_new_info (s : DB) (r : IdentifyRequestDto)
    (c0 : Contact) (rest : List Contact) (hwf : s.WF)
    (hwe : r.email ≠ some "") (hwp : r.phoneNumber ≠ some "")
    (hC : findContactsByEmailOrPhone r.email r.phoneNumber s = c0 :: rest) :
    ((identifyDB r s).store.length = s.store.length + 1
        ↔ hasNewInfoSpec (c0 :: rest) r.email r.phoneNumber)
      ∧ (identifyDB r s).store.length ≤ s.store.length + 1
      ∧ (hasNewInfoSpec (c0 :: rest) r.email r.phoneNumber →
          (identifyDB r s).byId s.nextId
            = some { id := s.nextId, email := r.email
                     phoneNumber := r.phoneNumber
                     linkedId := some (determinePrimaryContact c0 rest).id
                     linkPrecedence := .secondary, createdAt := s.clock
                     updatedAt := s.clock, deletedAt := none }) := by
  have hv2 := validation_passes hwe hwp hC
  have hdb : identifyDB r s = matchedDB3 r.email r.phoneNumber s c0 rest := by
    rw [identifyDB, identify_eq_matched hv2 hC, identifyMatched_fst]
  by_cases hnew : hasNewInfo (c0 :: rest) r.email r.phoneNumber = true
  · have hspec := (hasNewInfo_iff_spec hwe hwp).mp hnew
    have hlen : (identifyDB r s).store.length = s.store.length + 1 := by
      rw [hdb, matchedDB3_length_eq_db2, matchedDB2_length_insert hnew]
    refine ⟨⟨fun _ => hspec, fun _ => hlen⟩, le_of_eq hlen, fun _ => ?_⟩
    rw [hdb]
    exact byId_matchedDB3_new s r c0 rest hwf hC hnew
  · have hnf : hasNewInfo (c0 :: rest) r.email r.phoneNumber = false := by
      revert hnew
      cases hasNewInfo (c0 :: rest) r.email r.phoneNumber <;> simp
    have hnspec : ¬hasNewInfoSpec (c0 :: rest) r.email r.phoneNumber := by
      intro hsp
      exact hnew ((hasNewInfo_iff_spec hwe hwp).mpr hsp)
    have hlen : (identifyDB r s).store.length = s.store.length := by
      rw [hdb]
      exact matchedDB3_length_no_insert hnf
    refine ⟨⟨fun h => ?_, fun hsp => absurd hsp hnspec⟩, ?_, fun hsp =>
      absurd hsp hnspec⟩
    · rw [hlen] at h
      exact absurd h (Nat.ne_of_lt (Nat.lt_succ_self _))
    · rw [hlen]
      exact Nat.le_succ _

/-- Claim C6, witness: the theorem applied to the one-contact store of the
first request of the promotion scenario and the request (A,2), which
carries the new phone number 2 and so inserts exactly one secondary. -/
theorem c6_witness :
    (identifyDB (req (some "A") (some "2"))
        (runRequests (promoteTrace.take 1) DB.empty)).store.length
      = (runRequests (promoteTrace.take 1) DB.empty).store.length + 1 :=
  (c6_new_secondary_iff_new_info (runRequests (promoteTrace.take 1) DB.empty)
    (req (some "A") (some "2"))
    { id := 1, phoneNumber := some "1", email := some "A", linkedId := none
      linkPrecedence := .primary, createdAt := 0, updatedAt := 0
      deletedAt := none } []
    (by decide) (by decide) (by decide) (by decide)).1.mpr (by decide)

end Bitespeed

namespace Bitespeed

/-! ## The other-primaries query through the intermediate stores -/

lemma filter_map_save_eq (q : Contact → Bool) (c : Contact)
    (hq : ∀ d : Contact, d.id = c.id → q d = false) :
    ∀ l : List Contact,
      (l.map fun d => if d.id = c.id then c else d).filter q = l.filter q := by
  intro l
  induction l with
  | nil => rfl
  | cons d l ih =>
      rw [List.map_cons]
      by_cases hd : d.id = c.id
      · rw [if_pos hd, List.filter_cons_of_neg (by simp [hq c rfl]),
          List.filter_cons_of_neg (by simp [hq d hd])]
        exact ih
      · rw [if_neg hd]
        by_cases hqd : q d = true
        · rw [List.filter_cons_of_pos (by simp [hqd]),
            List.filter_cons_of_pos (by simp [hqd]), ih]
        · rw [List.filter_cons_of_neg (by simp [hqd]),
            List.filter_cons_of_neg (by simp [hqd])]
          exact ih

lemma matchedOthers_eq (email phoneNumber : Option String) (db : DB)
    (c0 : Contact) (rest : List Contact) :
    matchedOthers email phoneNumber db c0 rest
      = findOtherPrimaryContacts email phoneNumber
          (determinePrimaryContact c0 rest).id db := by
  have hstep1 :
      findOtherPrimaryContacts email phoneNumber
          (determinePrimaryContact c0 rest).id (matchedDB1 db c0 rest)
        = findOtherPrimaryContacts email phoneNumber
            (determinePrimaryContact c0 rest).id db := by
    unfold matchedDB1
    split
    · unfold findOtherPrimaryContacts DB.saveExisting
      apply filter_map_save_eq
      intro d hd
      apply decide_eq_false
      intro hcontra
      exact hcontra.2.2.1 hd
    · rfl
  unfold matchedOthers matchedDB2
  split
  · unfold findOtherPrimaryContacts
    rw [insert_snd_store, List.filter_append]
    have hsec : ((matchedDB1 db c0 rest).insert email phoneNumber
        (some (determinePrimaryContact c0 rest).id) .secondary).1.linkPrecedence
          = .secondary := by rw [insert_fst]
    rw [show (List.filter _ [((matchedDB1 db c0 rest).insert email phoneNumber
        (some (determinePrimaryContact c0 rest).id) .secondary).1]) = [] from by
      rw [List.filter_cons_of_neg, List.filter_nil]
      simp only [decide_eq_true_eq, not_and]
      intro _ hprim
      rw [hsec] at hprim
      cases hprim]
    rw [List.append_nil]
    exact hstep1
  · exact hstep1

/-! ## Looking up a saved row -/

lemma find?_id_map_save_self (c : Contact) :
    ∀ l : List Contact, (∃ d ∈ l, d.id = c.id) →
      ((l.map fun d => if d.id = c.id then c else d).find?
          fun d => decide (d.id = c.id)) = some c := by
  intro l
  induction l with
  | nil => rintro ⟨d, hd, _⟩; cases hd
  | cons d l ih =>
      rintro ⟨e, he, hei⟩
      rw [List.map_cons]
      by_cases hd : d.id = c.id
      · rw [if_pos hd, List.find?_cons_of_pos _ (by simp)]
      · rw [if_neg hd, List.find?_cons_of_neg _ (by simp [hd])]
        rcases List.mem_cons.mp he with rfl | he2
        · exact absurd hei hd
        · exact ih ⟨e, he2, hei⟩

lemma byId_saveExisting_self {db : DB} {c : Contact}
    (hex : ∃ d ∈ db.store, d.id = c.id) :
    (db.saveExisting c).byId c.id = some c := by
  unfold DB.byId DB.saveExisting
  exact find?_id_map_save_self c db.store hex

lemma mem_store_saveExisting_id {db : DB} {c : Contact} {i : Nat}
    (hex : ∃ d ∈ db.store, d.id = i) :
    ∃ d ∈ (db.saveExisting c).store, d.id = i := by
  obtain ⟨d, hd, hdi⟩ := hex
  by_cases hdc : d.id = c.id
  · exact ⟨c, List.mem_map.mpr ⟨d, hd, if_pos hdc⟩, by rw [← hdc, hdi]⟩
  · exact ⟨d, List.mem_map.mpr ⟨d, hd, if_neg hdc⟩, hdi⟩

lemma byId_foldl_saveExisting_mem (l : List Contact) :
    ∀ db : DB, (l.map Contact.id).Nodup → ∀ u ∈ l,
      (∃ d ∈ db.store, d.id = u.id) →
      (l.foldl DB.saveExisting db).byId u.id = some u := by
  induction l with
  | nil => intro db _ u hu; cases hu
  | cons v l ih =>
      intro db hnd u hu hex
      rw [List.map_cons, List.nodup_cons] at hnd
      rcases List.mem_cons.mp hu with rfl | hu2
      · rw [List.foldl_cons,
          byId_foldl_saveExisting_ne l u.id _ fun w hw hwid =>
            hnd.1 (hwid ▸ List.mem_map_of_mem Contact.id hw)]
        exact byId_saveExisting_self hex
      · rw [List.foldl_cons]
        apply ih _ hnd.2 u hu2
        apply mem_store_saveExisting_id hex

/-- Claim C2, amended theorem: when a merge is triggered, the contact the
demoted primaries are re-linked to is the contact with the earliest
createdAt among the Matcher's result set C (together with a new secondary
created in the same request, which is never earlier) — not among
{primaryContact} ∪ otherPrimaries; that earliest matched contact may
itself be a secondary, as the counterexample shows.  Every demoted
other-primary ends up secondary with linkedId equal to that contact's
id. -/
theorem c2_merge_target_is_earliest_matched (s : DB) (r : IdentifyRequestDto)
    (c0 : Contact) (rest : List Contact) (hwf : s.WF)
    (hwe : r.email ≠ some "") (hwp : r.phoneNumber ≠ some "")
    (hC : findContactsByEmailOrPhone r.email r.phoneNumber s = c0 :: rest) :
    (reduceEarliest c0 rest ∈ c0 :: rest
        ∧ ∀ c ∈ c0 :: rest, (reduceEarliest c0 rest).createdAt ≤ c.createdAt)
      ∧ ∀ u ∈ findOtherPrimaryContacts r.email r.phoneNumber
            (determinePrimaryContact c0 rest).id s,
          u.id ≠ (reduceEarliest c0 rest).id →
          ((identifyDB r s).byId u.id).map
              (fun c => (c.linkPrecedence, c.linkedId))
            = some (.secondary, some (reduceEarliest c0 rest).id) := by
  have hv2 := validation_passes hwe hwp hC
  have hdb : identifyDB r s = matchedDB3 r.email r.phoneNumber s c0 rest := by
    rw [identifyDB, identify_eq_matched hv2 hC, identifyMatched_fst]
  refine ⟨⟨reduceEarliest_mem c0 rest, reduceEarliest_le c0 rest⟩, ?_⟩
  intro u hu hne
  have htail : reduceEarliest c0 (matchedTail2 r.email r.phoneNumber s c0 rest)
      = reduceEarliest c0 rest := by
    unfold matchedTail2
    split
    · apply reduceEarliest_append_newest
      have hmem : reduceEarliest c0 rest ∈ s.store := by
        have hmf : reduceEarliest c0 rest
            ∈ findContactsByEmailOrPhone r.email r.phoneNumber s := by
          rw [hC]; exact reduceEarliest_mem c0 rest
        exact (List.mem_filter.mp hmf).1
      have hlt := hwf.2.1 _ hmem
      rw [matchedSaved, insert_fst]
      show (reduceEarliest c0 rest).createdAt < (matchedDB1 s c0 rest).clock
      rw [matchedDB1_clock]
      exact hlt
    · rfl
  have huo : u ∈ matchedOthers r.email r.phoneNumber s c0 rest := by
    rw [matchedOthers_eq]; exact hu
  have hus : u ∈ s.store := (List.mem_filter.mp hu).1
  have hupdate :
      ({ u with
          linkPrecedence := .secondary,
          linkedId := some (reduceEarliest c0 rest).id,
          updatedAt := (matchedDB2 r.email r.phoneNumber s c0 rest).clock } :
          Contact)
        ∈ matchedToUpdate r.email r.phoneNumber s c0 rest := by
    unfold matchedToUpdate reassignPrimaryContacts
    rw [htail]
    apply List.mem_map.mpr
    refine ⟨u, List.mem_filter.mpr ⟨huo, decide_eq_true hne⟩, rfl⟩
  have hnodup : ((matchedToUpdate r.email r.phoneNumber s c0 rest).map
      Contact.id).Nodup := by
    unfold matchedToUpdate reassignPrimaryContacts
    rw [List.map_map]
    have hmapeq : ((Contact.id ∘ fun c => { c with
        linkPrecedence := .secondary,
        linkedId := some (reduceEarliest c0
          (matchedTail2 r.email r.phoneNumber s c0 rest)).id,
        updatedAt := (matchedDB2 r.email r.phoneNumber s c0 rest).clock })) =
        Contact.id := by
      funext c; rfl
    rw [hmapeq]
    have hsub1 : List.Sublist
        ((matchedOthers r.email r.phoneNumber s c0 rest).filter
          fun c => decide (c.id ≠ (reduceEarliest c0
            (matchedTail2 r.email r.phoneNumber s c0 rest)).id))
        s.store := by
      apply List.Sublist.trans (List.filter_sublist _)
      rw [matchedOthers_eq]
      exact List.filter_sublist _
    exact List.Nodup.sublist (hsub1.map Contact.id) hwf.2.2
  have hexists : ∃ d ∈ (matchedDB2 r.email r.phoneNumber s c0 rest).store,
      d.id = u.id := by
    have hbase : ∃ d ∈ s.store, d.id = u.id := ⟨u, hus, rfl⟩
    have h1 : ∃ d ∈ (matchedDB1 s c0 rest).store, d.id = u.id := by
      unfold matchedDB1
      split
      · exact mem_store_saveExisting_id hbase
      · exact hbase
    unfold matchedDB2
    split
    · obtain ⟨d, hd, hdi⟩ := h1
      exact ⟨d, by rw [insert_snd_store]; exact List.mem_append_left _ hd, hdi⟩
    · exact h1
  have hempty : (matchedOthers r.email r.phoneNumber s c0 rest).isEmpty
      = false := by
    rcases h : (matchedOthers r.email r.phoneNumber s c0 rest) with _ | ⟨a, l⟩
    · rw [h] at huo; cases huo
    · rfl
  rw [hdb]
  unfold matchedDB3
  rw [hempty]
  show (((matchedToUpdate r.email r.phoneNumber s c0 rest).foldl DB.saveExisting
      (matchedDB2 r.email r.phoneNumber s c0 rest)).byId u.id).map
        (fun c => (c.linkPrecedence, c.linkedId))
      = some (.secondary, some (reduceEarliest c0 rest).id)
  have hfinal := byId_foldl_saveExisting_mem
    (matchedToUpdate r.email r.phoneNumber s c0 rest)
    (matchedDB2 r.email r.phoneNumber s c0 rest) hnodup _ hupdate hexists
  rw [show ({ u with
      linkPrecedence := .secondary,
      linkedId := some (reduceEarliest c0 rest).id,
      updatedAt := (matchedDB2 r.email r.phoneNumber s c0 rest).clock } :
        Contact).id = u.id from rfl] at hfinal
  rw [hfinal]
  rfl

/-- Claim C2, witness: the amended theorem applied to the final call of
the merge-target scenario — the demoted contact 4 is re-linked to the
earliest matched contact (the secondary contact 2). -/
theorem c2_witness :
    ((identifyDB (req (some "B") (some "3"))
        (runRequests (mergeTargetTrace.take 6) DB.empty)).byId 4).map
        (fun c => (c.linkPrecedence, c.linkedId))
      = some (.secondary, some (reduceEarliest
          { id := 2, phoneNumber := some "2", email := some "B"
            linkedId := some 1, linkPrecedence := .secondary
            createdAt := 1, updatedAt := 3, deletedAt := none }
          [{ id := 3, phoneNumber := some "3", email := some "B"
             linkedId := some 2, linkPrecedence := .primary
             createdAt := 2, updatedAt := 2, deletedAt := none },
           { id := 4, phoneNumber := some "3", email := some "C"
             linkedId := some 3, linkPrecedence := .primary
             createdAt := 3, updatedAt := 3, deletedAt := none }]).id) :=
  (c2_merge_target_is_earliest_matched
    (runRequests (mergeTargetTrace.take 6) DB.empty)
    (req (some "B") (some "3"))
    { id := 2, phoneNumber := some "2", email := some "B", linkedId := some 1
      linkPrecedence := .secondary, createdAt := 1, updatedAt := 3
      deletedAt := none }
    [{ id := 3, phoneNumber := some "3", email := some "B", linkedId := some 2
       linkPrecedence := .primary, createdAt := 2, updatedAt := 2
       deletedAt := none },
     { id := 4, phoneNumber := some "3", email := some "C", linkedId := some 3
       linkPrecedence := .primary, createdAt := 3, updatedAt := 3
       deletedAt := none }]
    (by decide) (by decide) (by decide) (by decide)).2
    { id := 4, phoneNumber := some "3", email := some "C", linkedId := some 3
      linkPrecedence := .primary, createdAt := 3, updatedAt := 3
      deletedAt := none }
    (by decide) (by decide)

end Bitespeed

namespace Bitespeed

/-! ## The resolved primary contact survives the call -/

lemma find?_append_left {α} {p : α → Bool} {l1 l2 : List α} {x : α}
    (h : l1.find? p = some x) : (l1 ++ l2).find? p = some x := by
  induction l1 with
  | nil => cases h
  | cons a l ih =>
      rw [List.cons_append]
      by_cases ha : p a = true
      · rw [List.find?_cons_of_pos _ ha] at h ⊢
        exact h
      · rw [List.find?_cons_of_neg _ ha] at h ⊢
        exact ih h

lemma find?_id_of_mem_nodup :
    ∀ {l : List Contact}, (l.map Contact.id).Nodup → ∀ {c : Contact}, c ∈ l →
      (l.find? fun d => decide (d.id = c.id)) = some c := by
  intro l
  induction l with
  | nil => intro _ c hc; cases hc
  | cons d l ih =>
      intro hnd c hc
      rw [List.map_cons, List.nodup_cons] at hnd
      rcases List.mem_cons.mp hc with rfl | hc2
      · rw [List.find?_cons_of_pos _ (by simp)]
      · by_cases hdc : d.id = c.id
        · exact absurd (by rw [hdc]; exact List.mem_map_of_mem Contact.id hc2)
            hnd.1
        · rw [List.find?_cons_of_neg _ (by simp [hdc])]
          exact ih hnd.2 hc2

lemma byId_of_mem_nodup {db : DB} (hnd : (db.store.map Contact.id).Nodup)
    {c : Contact} (hc : c ∈ db.store) : db.byId c.id = some c := by
  unfold DB.byId
  exact find?_id_of_mem_nodup hnd hc

lemma matchedToUpdate_ids {email phoneNumber : Option String} {db : DB}
    {c0 : Contact} {rest : List Contact}
    (hfresh : ∀ c ∈ db.store, c.id < db.nextId) :
    ∀ u ∈ matchedToUpdate email phoneNumber db c0 rest,
      u.id ≠ (determinePrimaryContact c0 rest).id ∧ u.id ≠ db.nextId := by
  intro u hu
  unfold matchedToUpdate reassignPrimaryContacts at hu
  simp only [List.mem_map] at hu
  obtain ⟨c, hcmem, rfl⟩ := hu
  have hco := (List.mem_filter.mp hcmem).1
  unfold matchedOthers findOtherPrimaryContacts at hco
  have hcmem2 := List.mem_filter.mp hco
  have hprops := of_decide_eq_true hcmem2.2
  refine ⟨hprops.2.2.1, ?_⟩
  rcases mem_matchedDB2 hcmem2.1 with rfl | rfl | hcs
  · have hcprim := hprops.2.1
    rw [matchedSaved, insert_fst] at hcprim
    cases hcprim
  · exact absurd rfl hprops.2.2.1
  · exact Nat.ne_of_lt (hfresh c hcs)

lemma byId_matchedDB3_pc (s : DB) (r : IdentifyRequestDto) (c0 : Contact)
    (rest : List Contact) (hwf : s.WF)
    (hC : findContactsByEmailOrPhone r.email r.phoneNumber s = c0 :: rest) :
    (matchedDB3 r.email r.phoneNumber s c0 rest).byId
        (determinePrimaryContact c0 rest).id
      = some (determinePrimaryContact c0 rest) := by
  have hbyId1 : (matchedDB1 s c0 rest).byId (determinePrimaryContact c0 rest).id
      = some (determinePrimaryContact c0 rest) := by
    unfold matchedDB1
    split
    · apply byId_saveExisting_self
      obtain ⟨c, hcmem, hshape⟩ := determinePrimaryContact_shape c0 rest
      have hcs : c ∈ s.store := by
        have hcf : c ∈ findContactsByEmailOrPhone r.email r.phoneNumber s := by
          rw [hC]; exact hcmem
        exact (List.mem_filter.mp hcf).1
      refine ⟨c, hcs, ?_⟩
      rcases hshape with h | h <;> rw [h]
    · next hcond =>
        have heq : (determinePrimaryContact c0 rest).linkPrecedence
            = c0.linkPrecedence := not_ne_iff.mp hcond
        have hc0p : c0.linkPrecedence = .primary :=
          heq ▸ determinePrimaryContact_precedence c0 rest
        have hpceq : determinePrimaryContact c0 rest = c0 := by
          unfold determinePrimaryContact
          rw [List.find?_cons_of_pos _ (by simp [hc0p])]
        rw [hpceq]
        have hc0s : c0 ∈ s.store := by
          have hcf : c0 ∈ findContactsByEmailOrPhone r.email r.phoneNumber s := by
            rw [hC]; exact List.mem_cons_self _ _
          exact (List.mem_filter.mp hcf).1
        exact byId_of_mem_nodup hwf.2.2 hc0s
  have hbyId2 : (matchedDB2 r.email r.phoneNumber s c0 rest).byId
      (determinePrimaryContact c0 rest).id
        = some (determinePrimaryContact c0 rest) := by
    unfold matchedDB2
    split
    · unfold DB.byId at hbyId1 ⊢
      show (((matchedDB1 s c0 rest).insert r.email r.phoneNumber _ _).2).store.find?
          _ = _
      rw [insert_snd_store]
      exact find?_append_left hbyId1
    · exact hbyId1
  unfold matchedDB3
  split
  · exact hbyId2
  · rw [byId_foldl_saveExisting_ne _ _ _
      fun u hu => (matchedToUpdate_ids hwf.1 u hu).1]
    exact hbyId2

/-- Claim C3, amended: the Fact Recorder runs before the merge step — the
write log of a matched reconciliation is the possible promotion save of
the resolved primary, then the possible new-secondary insert, then the
merge demotion updates, in that order; the demotions never touch the
resolved primary or the new row.  Nevertheless any new secondary created
in the same request has linkedId equal to the resolved primary contact's
id, and that contact still has linkPrecedence primary in the final store,
so the new secondary never points to a contact demoted in the same
request. -/
theorem c3_fact_recorder_before_merge (s : DB) (r : IdentifyRequestDto)
    (c0 : Contact) (rest : List Contact) (hwf : s.WF)
    (hwe : r.email ≠ some "") (hwp : r.phoneNumber ≠ some "")
    (hC : findContactsByEmailOrPhone r.email r.phoneNumber s = c0 :: rest) :
    (∃ lp li lm : List StoreEvent,
        identifyLog r s = lp ++ li ++ lm
          ∧ (∀ e ∈ lp, e = .update (determinePrimaryContact c0 rest).id)
          ∧ (∀ e ∈ li, e = .insert s.nextId)
          ∧ (∀ e ∈ lm, ∃ i, e = .update i
              ∧ i ≠ (determinePrimaryContact c0 rest).id ∧ i ≠ s.nextId))
      ∧ (hasNewInfo (c0 :: rest) r.email r.phoneNumber = true →
          ((identifyDB r s).byId s.nextId).map Contact.linkedId
            = some (some (determinePrimaryContact c0 rest).id))
      ∧ ((identifyDB r s).byId (determinePrimaryContact c0 rest).id).map
          Contact.linkPrecedence = some LinkPrecedence.primary := by
  have hv2 := validation_passes hwe hwp hC
  have hdb : identifyDB r s = matchedDB3 r.email r.phoneNumber s c0 rest := by
    rw [identifyDB, identify_eq_matched hv2 hC, identifyMatched_fst]
  have hlog : identifyLog r s
      = (identifyMatched r.email r.phoneNumber s c0 rest).2.2 := by
    rw [identifyLog, identify_eq_matched hv2 hC]
  refine ⟨?_, fun hnew => ?_, ?_⟩
  · rw [hlog, identifyMatched_log]
    refine ⟨_, _, _, rfl, ?_, ?_, ?_⟩
    · intro e he
      split at he
      · rw [List.mem_singleton.mp he]
      · cases he
    · intro e he
      split at he
      · rw [List.mem_singleton.mp he, matchedSaved, insert_fst]
        show StoreEvent.insert (matchedDB1 s c0 rest).nextId = _
        rw [matchedDB1_nextId]
      · cases he
    · intro e he
      split at he
      · cases he
      · simp only [List.mem_map] at he
        obtain ⟨u, hu, rfl⟩ := he
        obtain ⟨h1, h2⟩ := matchedToUpdate_ids hwf.1 u hu
        exact ⟨u.id, rfl, h1, h2⟩
  · rw [hdb, byId_matchedDB3_new s r c0 rest hwf hC hnew]
    rfl
  · rw [hdb, byId_matchedDB3_pc s r c0 rest hwf hC]
    rw [Option.map_some']
    rw [determinePrimaryContact_precedence]

/-- Claim C3, witness: the amended theorem applied to the call (A,7) on
the promotion-scenario store, in which both a new secondary is created and
a merge demotes contact 2: the new secondary (row 4) is linked to the
resolved primary (contact 1), which is not demoted. -/
theorem c3_witness :
    ((identifyDB (req (some "A") (some "7"))
        (runRequests promoteTrace DB.empty)).byId
        (runRequests promoteTrace DB.empty).nextId).map Contact.linkedId
      = some (some (determinePrimaryContact
          { id := 1, phoneNumber := some "1", email := some "A"
            linkedId := none, linkPrecedence := .primary
            createdAt := 0, updatedAt := 0, deletedAt := none }
          [{ id := 2, phoneNumber := some "2", email := some "A"
             linkedId := some 1, linkPrecedence := .primary
             createdAt := 1, updatedAt := 1, deletedAt := none }]).id) :=
  (c3_fact_recorder_before_merge (runRequests promoteTrace DB.empty)
    (req (some "A") (some "7"))
    { id := 1, phoneNumber := some "1", email := some "A", linkedId := none
      linkPrecedence := .primary, createdAt := 0, updatedAt := 0
      deletedAt := none }
    [{ id := 2, phoneNumber := some "2", email := some "A", linkedId := some 1
       linkPrecedence := .primary, createdAt := 1, updatedAt := 1
       deletedAt := none }]
    (by decide) (by decide) (by decide) (by decide)).2.1 (by decide)

end Bitespeed

namespace Bitespeed

/-! ## Consolidation lemmas -/

lemma jsSetDedupAux_sublist : ∀ (l seen : List String),
    List.Sublist (jsSetDedupAux seen l) l := by
  intro l
  induction l with
  | nil => intro seen; exact List.Sublist.refl _
  | cons x xs ih =>
      intro seen
      unfold jsSetDedupAux
      split
      · exact List.Sublist.cons x (ih seen)
      · exact List.Sublist.cons₂ x (ih (x :: seen))

lemma mem_jsSetDedupAux {x : String} : ∀ (l seen : List String),
    x ∈ jsSetDedupAux seen l ↔ x ∈ l ∧ x ∉ seen := by
  intro l
  induction l with
  | nil => intro seen; simp [jsSetDedupAux]
  | cons y ys ih =>
      intro seen
      unfold jsSetDedupAux
      split
      · next hy =>
          rw [ih seen]
          constructor
          · rintro ⟨h1, h2⟩
            exact ⟨List.mem_cons_of_mem _ h1, h2⟩
          · rintro ⟨h1, h2⟩
            rcases List.mem_cons.mp h1 with rfl | h12
            · exact absurd hy h2
            · exact ⟨h12, h2⟩
      · next hy =>
          constructor
          · intro hx
            rcases List.mem_cons.mp hx with rfl | hx2
            · exact ⟨List.mem_cons_self _ _, hy⟩
            · obtain ⟨h1, h2⟩ := (ih (y :: seen)).mp hx2
              exact ⟨List.mem_cons_of_mem _ h1,
                fun hs => h2 (List.mem_cons_of_mem _ hs)⟩
          · rintro ⟨h1, h2⟩
            by_cases hxy : x = y
            · exact hxy ▸ List.mem_cons_self _ _
            · rcases List.mem_cons.mp h1 with h11 | h12
              · exact absurd h11 hxy
              · apply List.mem_cons_of_mem
                apply (ih (y :: seen)).mpr
                refine ⟨h12, fun hs => ?_⟩
                rcases List.mem_cons.mp hs with h | hs2
                · exact hxy h
                · exact h2 hs2

lemma jsSetDedupAux_nodup : ∀ (l seen : List String),
    (jsSetDedupAux seen l).Nodup := by
  intro l
  induction l with
  | nil => intro seen; exact List.nodup_nil
  | cons x xs ih =>
      intro seen
      unfold jsSetDedupAux
      split
      · exact ih seen
      · rw [List.nodup_cons]
        refine ⟨fun hx => ?_, ih (x :: seen)⟩
        exact ((mem_jsSetDedupAux xs (x :: seen)).mp hx).2 (List.mem_cons_self _ _)

lemma mem_jsSetDedup {x : String} {l : List String} :
    x ∈ jsSetDedup l ↔ x ∈ l := by
  unfold jsSetDedup
  rw [mem_jsSetDedupAux l []]
  simp

lemma jsSetDedup_nodup (l : List String) : (jsSetDedup l).Nodup :=
  jsSetDedupAux_nodup l []

lemma jsSetDedup_sublist (l : List String) :
    List.Sublist (jsSetDedup l) l :=
  jsSetDedupAux_sublist l []

lemma pairwise_mono_mem {α : Type} {R S : α → α → Prop} :
    ∀ {l : List α}, (∀ a ∈ l, ∀ b ∈ l, R a b → S a b) → l.Pairwise R →
      l.Pairwise S := by
  intro l
  induction l with
  | nil => intro _ _; exact List.Pairwise.nil
  | cons x xs ih =>
      intro h hp
      rw [List.pairwise_cons] at hp ⊢
      refine ⟨fun b hb => h x (List.mem_cons_self _ _) b
        (List.mem_cons_of_mem _ hb) (hp.1 b hb), ?_⟩
      exact ih (fun a ha b hb => h a (List.mem_cons_of_mem _ ha) b
        (List.mem_cons_of_mem _ hb)) hp.2

lemma jsSetDedupAux_pairwise_indexOf : ∀ (l seen : List String),
    (jsSetDedupAux seen l).Pairwise
      fun x y => l.indexOf x < l.indexOf y := by
  intro l
  induction l with
  | nil => intro seen; exact List.Pairwise.nil
  | cons y ys ih =>
      intro seen
      unfold jsSetDedupAux
      split
      · next hy =>
          apply pairwise_mono_mem ?_ (ih seen)
          intro a ha b hb hab
          have hay : a ≠ y :=
            fun h => ((mem_jsSetDedupAux ys seen).mp ha).2 (h ▸ hy)
          have hby : b ≠ y :=
            fun h => ((mem_jsSetDedupAux ys seen).mp hb).2 (h ▸ hy)
          rw [List.indexOf_cons_ne _ (Ne.symm hay),
            List.indexOf_cons_ne _ (Ne.symm hby)]
          exact Nat.succ_lt_succ hab
      · next hy =>
          rw [List.pairwise_cons]
          constructor
          · intro z hz
            have hzy : z ≠ y := fun h =>
              ((mem_jsSetDedupAux ys (y :: seen)).mp hz).2
                (h ▸ List.mem_cons_self _ _)
            rw [List.indexOf_cons_self, List.indexOf_cons_ne _ (Ne.symm hzy)]
            exact Nat.succ_pos _
          · apply pairwise_mono_mem ?_ (ih (y :: seen))
            intro a ha b hb hab
            have hay : a ≠ y := fun h =>
              ((mem_jsSetDedupAux ys (y :: seen)).mp ha).2
                (h ▸ List.mem_cons_self _ _)
            have hby : b ≠ y := fun h =>
              ((mem_jsSetDedupAux ys (y :: seen)).mp hb).2
                (h ▸ List.mem_cons_self _ _)
            rw [List.indexOf_cons_ne _ (Ne.symm hay),
              List.indexOf_cons_ne _ (Ne.symm hby)]
            exact Nat.succ_lt_succ hab

lemma jsSetDedup_pairwise_indexOf (l : List String) :
    (jsSetDedup l).Pairwise fun x y => l.indexOf x < l.indexOf y :=
  jsSetDedupAux_pairwise_indexOf l []

lemma mem_truthyValues {x : String} {l : List (Option String)} :
    x ∈ truthyValues l ↔ x ≠ "" ∧ some x ∈ l := by
  unfold truthyValues
  rw [List.mem_filterMap]
  constructor
  · rintro ⟨o, ho, heq⟩
    cases o with
    | none => cases heq
    | some s =>
        have heq2 : (if s = "" then none else some s) = some x := heq
        by_cases hs : s = ""
        · rw [if_pos hs] at heq2
          cases heq2
        · rw [if_neg hs] at heq2
          cases heq2
          exact ⟨hs, ho⟩
  · rintro ⟨hne, ho⟩
    refine ⟨some x, ho, ?_⟩
    show (if x = "" then none else some x) = some x
    rw [if_neg hne]

lemma mem_moveToFront {v : Option String} {l : List String} {x : String} :
    x ∈ moveToFront v l ↔ x ∈ l := by
  cases v with
  | none => exact Iff.rfl
  | some s =>
      show x ∈ (if s ≠ "" ∧ s ∈ l then s :: l.erase s else l) ↔ x ∈ l
      split
      · next hc =>
          constructor
          · intro hx
            rcases List.mem_cons.mp hx with rfl | hx2
            · exact hc.2
            · exact List.mem_of_mem_erase hx2
          · intro hx
            by_cases hxs : x = s
            · exact hxs ▸ List.mem_cons_self _ _
            · exact List.mem_cons_of_mem _ ((List.mem_erase_of_ne hxs).mpr hx)
      · exact Iff.rfl

lemma nodup_moveToFront {v : Option String} {l : List String} (h : l.Nodup) :
    (moveToFront v l).Nodup := by
  cases v with
  | none => exact h
  | some s =>
      show (if s ≠ "" ∧ s ∈ l then s :: l.erase s else l).Nodup
      split
      · rw [List.nodup_cons]
        refine ⟨fun hs => ?_, h.erase s⟩
        exact ((h.mem_erase_iff).mp hs).1 rfl
      · exact h

lemma head_moveToFront {s : String} {l : List String}
    (hne : s ≠ "") (hmem : s ∈ l) :
    (moveToFront (some s) l).head? = some s := by
  show (if s ≠ "" ∧ s ∈ l then s :: l.erase s else l).head? = some s
  rw [if_pos ⟨hne, hmem⟩]
  rfl

lemma tail_moveToFront_sublist {v : Option String} {l : List String} :
    List.Sublist (moveToFront v l).tail l := by
  cases v with
  | none => exact List.tail_sublist l
  | some s =>
      show List.Sublist (if s ≠ "" ∧ s ∈ l then s :: l.erase s else l).tail l
      split
      · exact List.erase_sublist s l
      · exact List.tail_sublist l

lemma moveToFront_eq_of_not {v : Option String} {l : List String}
    (h : ∀ e, v = some e → ¬(e ≠ "" ∧ e ∈ l)) : moveToFront v l = l := by
  cases v with
  | none => rfl
  | some s =>
      show (if s ≠ "" ∧ s ∈ l then s :: l.erase s else l) = l
      rw [if_neg (h s rfl)]

/-- Claim C7: the consolidated response's emails are exactly the distinct
non-empty email values of the cluster list (no duplicates), with the
primary contact's own email — when present, non-empty and occurring in the
cluster — first; the entries after the head are in strictly increasing
order of first appearance in the scan of the cluster list (the index of a
value's first occurrence in the truthy scan), and when the primary
contributes no front value the whole list is in that first-appearance
order, which together with distinctness and the membership
characterisation determines the list uniquely; likewise for phone
numbers; and secondaryContactIds are the ids of exactly the contacts with
secondary precedence, in list order, hence createdAt-ascending whenever
the cluster list is createdAt-ascending.  The consolidation is a pure
projection. -/
theorem c7_consolidation (allContacts : List Contact) (primaryContact : Contact) :
    (consolidateContacts allContacts primaryContact).contact.emails.Nodup
      ∧ (∀ x, x ∈ (consolidateContacts allContacts primaryContact).contact.emails
          ↔ x ≠ "" ∧ ∃ c ∈ allContacts, c.email = some x)
      ∧ (∀ e, primaryContact.email = some e → e ≠ "" →
          (∃ c ∈ allContacts, c.email = some e) →
          (consolidateContacts allContacts primaryContact).contact.emails.head?
            = some e)
      ∧ (consolidateContacts allContacts
          primaryContact).contact.emails.tail.Pairwise
          (fun x y => (truthyValues (allContacts.map (·.email))).indexOf x
            < (truthyValues (allContacts.map (·.email))).indexOf y)
      ∧ ((∀ e, primaryContact.email = some e →
            ¬(e ≠ "" ∧ e ∈ truthyValues (allContacts.map (·.email)))) →
          (consolidateContacts allContacts
            primaryContact).contact.emails.Pairwise
            fun x y => (truthyValues (allContacts.map (·.email))).indexOf x
              < (truthyValues (allContacts.map (·.email))).indexOf y)
      ∧ (consolidateContacts allContacts primaryContact).contact.phoneNumbers.Nodup
      ∧ (∀ x, x ∈ (consolidateContacts allContacts
            primaryContact).contact.phoneNumbers
          ↔ x ≠ "" ∧ ∃ c ∈ allContacts, c.phoneNumber = some x)
      ∧ (∀ p, primaryContact.phoneNumber = some p → p ≠ "" →
          (∃ c ∈ allContacts, c.phoneNumber = some p) →
          (consolidateContacts allContacts
              primaryContact).contact.phoneNumbers.head? = some p)
      ∧ (consolidateContacts allContacts
          primaryContact).contact.phoneNumbers.tail.Pairwise
          (fun x y => (truthyValues (allContacts.map (·.phoneNumber))).indexOf x
            < (truthyValues (allContacts.map (·.phoneNumber))).indexOf y)
      ∧ ((∀ p, primaryContact.phoneNumber = some p →
            ¬(p ≠ "" ∧ p ∈ truthyValues (allContacts.map (·.phoneNumber)))) →
          (consolidateContacts allContacts
            primaryContact).contact.phoneNumbers.Pairwise
            fun x y => (truthyValues (allContacts.map (·.phoneNumber))).indexOf x
              < (truthyValues (allContacts.map (·.phoneNumber))).indexOf y)
      ∧ (consolidateContacts allContacts primaryContact).contact.secondaryContactIds
          = (allContacts.filter fun c =>
              decide (c.linkPrecedence = .secondary)).map (·.id)
      ∧ ((allContacts.Pairwise fun a b => a.createdAt ≤ b.createdAt) →
          (allContacts.filter fun c =>
            decide (c.linkPrecedence = .secondary)).Pairwise
              fun a b => a.createdAt ≤ b.createdAt) := by
  have hemails : (consolidateContacts allContacts primaryContact).contact.emails
      = moveToFront primaryContact.email
          (jsSetDedup (truthyValues (allContacts.map (·.email)))) := rfl
  have hphones :
      (consolidateContacts allContacts primaryContact).contact.phoneNumbers
        = moveToFront primaryContact.phoneNumber
            (jsSetDedup (truthyValues (allContacts.map (·.phoneNumber)))) := rfl
  refine ⟨?_, ?_, ?_, ?_, ?_, ?_, ?_, ?_, ?_, ?_, rfl, ?_⟩
  · rw [hemails]
    exact nodup_moveToFront (jsSetDedup_nodup _)
  · intro x
    rw [hemails, mem_moveToFront, mem_jsSetDedup, mem_truthyValues,
      List.mem_map]
  · intro e he hne hex
    rw [hemails, he]
    apply head_moveToFront hne
    rw [mem_jsSetDedup, mem_truthyValues]
    obtain ⟨c, hc, hce⟩ := hex
    exact ⟨hne, List.mem_map.mpr ⟨c, hc, hce⟩⟩
  · rw [hemails]
    exact List.Pairwise.sublist tail_moveToFront_sublist
      (jsSetDedup_pairwise_indexOf _)
  · intro h
    rw [hemails, moveToFront_eq_of_not fun e he hc =>
      h e he ⟨hc.1, mem_jsSetDedup.mp hc.2⟩]
    exact jsSetDedup_pairwise_indexOf _
  · rw [hphones]
    exact nodup_moveToFront (jsSetDedup_nodup _)
  · intro x
    rw [hphones, mem_moveToFront, mem_jsSetDedup, mem_truthyValues,
      List.mem_map]
  · intro p hp hne hex
    rw [hphones, hp]
    apply head_moveToFront hne
    rw [mem_jsSetDedup, mem_truthyValues]
    obtain ⟨c, hc, hcp⟩ := hex
    exact ⟨hne, List.mem_map.mpr ⟨c, hc, hcp⟩⟩
  · rw [hphones]
    exact List.Pairwise.sublist tail_moveToFront_sublist
      (jsSetDedup_pairwise_indexOf _)
  · intro h
    rw [hphones, moveToFront_eq_of_not fun p hp hc =>
      h p hp ⟨hc.1, mem_jsSetDedup.mp hc.2⟩]
    exact jsSetDedup_pairwise_indexOf _
  · intro hs
    exact List.Pairwise.sublist (List.filter_sublist _) hs

/-- Claim C7, witness: the theorem applied to a concrete two-contact
cluster — the primary's email B is moved to the front even though A
appears first in the scan. -/
theorem c7_witness :
    (consolidateContacts
        [{ id := 1, phoneNumber := some "1", email := some "A"
           linkedId := none, linkPrecedence := .secondary
           createdAt := 0, updatedAt := 0, deletedAt := none },
         { id := 2, phoneNumber := some "2", email := some "B"
           linkedId := none, linkPrecedence := .primary
           createdAt := 1, updatedAt := 1, deletedAt := none }]
        { id := 2, phoneNumber := some "2", email := some "B"
          linkedId := none, linkPrecedence := .primary
          createdAt := 1, updatedAt := 1, deletedAt := none }).contact.emails.head?
      = some "B" :=
  (c7_consolidation
    [{ id := 1, phoneNumber := some "1", email := some "A"
       linkedId := none, linkPrecedence := .secondary
       createdAt := 0, updatedAt := 0, deletedAt := none },
     { id := 2, phoneNumber := some "2", email := some "B"
       linkedId := none, linkPrecedence := .primary
       createdAt := 1, updatedAt := 1, deletedAt := none }]
    { id := 2, phoneNumber := some "2", email := some "B"
      linkedId := none, linkPrecedence := .primary
      createdAt := 1, updatedAt := 1, deletedAt := none }).2.2.1 "B" rfl
    (by decide) (by decide)

end Bitespeed
